import Mathlib

/-!
Verification of the `TimeInterval` value type from
`src/aw-models/src/timeinterval.rs`.

The model represents `chrono::DateTime<Utc>` by the instant it denotes, as an
integer count of nanoseconds since the Unix epoch (`Int`); `chrono::Duration`
is likewise a signed nanosecond count.  chrono itself is an external library
whose sources are not part of this repository, so its RFC 3339 formatter and
parser and the proleptic-Gregorian calendar arithmetic they rest on are
modelled from the spec (RFC 3339 grammar, UTC normalization, lossless
sub-second round-trip).  Leap seconds are outside the model.
-/

namespace AwModels

/-! ## Decimal digits -/

/-- Character for a single decimal digit value (`0 ≤ d ≤ 9` intended). -/
def digitChar (d : Nat) : Char := Char.ofNat (48 + d)

/-- Zero-padded fixed-width decimal rendering of `n`, most significant digit
first, as produced by chrono's zero-padded numeric format items. -/
def padDigits : Nat → Nat → List Char
  | 0, _ => []
  | w + 1, n => padDigits w (n / 10) ++ [digitChar (n % 10)]

/-- Numeric value of a digit string (most significant digit first). -/
def natOfDigits (l : List Char) : Nat := l.foldl (fun a c => a * 10 + (c.toNat - 48)) 0

/-- Consume exactly `w` decimal digits from the front of `l`, returning their
value and the rest of the input. -/
def readDigits (w : Nat) (l : List Char) : Option (Nat × List Char) :=
  let ds := l.take w
  if ds.length == w && ds.all Char.isDigit then some (natOfDigits ds, l.drop w) else none

/-! ## Proleptic-Gregorian calendar

Modelled from the spec: RFC 3339 timestamps use the proleptic Gregorian
calendar; chrono (external to this repository) converts between calendar
dates and day counts.  The algorithms below are the standard era-based
civil-from-days / days-from-civil conversions. -/

/-- Year-of-era, month and day from a day-of-era (`0 ≤ doe < 146097`,
one 400-year era).  Months are the final calendar months `1..12`; the
year-of-era is the one of the shifted (March-based) year. -/
def civilFromDoe (doe : Nat) : Nat × Nat × Nat :=
  let yoe := (doe - doe / 1460 + doe / 36524 - doe / 146096) / 365
  let doy := doe - (365 * yoe + yoe / 4 - yoe / 100)
  let mp := (5 * doy + 2) / 153
  let d := doy - (153 * mp + 2) / 5 + 1
  let m := if mp < 10 then mp + 3 else mp - 9
  (yoe, m, d)

/-- Civil date `(year, month, day)` of day number `z` (days since 1970-01-01). -/
def civilFromDays (z : Int) : Int × Nat × Nat :=
  let zz := z + 719468
  let era := zz / 146097
  let doe := (zz % 146097).toNat
  let c := civilFromDoe doe
  (era * 400 + c.1 + (if c.2.1 ≤ 2 then 1 else 0), c.2.1, c.2.2)

/-- Day of the shifted (March-based) year for calendar month `m` and day `d`. -/
def doyFromMd (m d : Nat) : Nat := (153 * (if 2 < m then m - 3 else m + 9) + 2) / 5 + d - 1

/-- Day number (days since 1970-01-01) of the civil date `(y, m, d)`. -/
def daysFromCivil (y : Int) (m d : Nat) : Int :=
  let y' := y - (if m ≤ 2 then 1 else 0)
  let era := y' / 400
  let yoe := (y' % 400).toNat
  let doe := 365 * yoe + yoe / 4 - yoe / 100 + doyFromMd m d
  era * 146097 + (doe : Int) - 719468

/-- Gregorian leap-year test. -/
def isLeap (y : Int) : Bool := (y % 4 == 0 && y % 100 != 0) || y % 400 == 0

/-- Number of days in calendar month `m` of year `y`. -/
def daysInMonth (y : Int) (m : Nat) : Nat :=
  if m = 2 then (if isLeap y then 29 else 28)
  else if m = 4 || m = 6 || m = 9 || m = 11 then 30 else 31

/-! Verification helpers for the calendar conversions: the era is cut into
400 year-of-era slices and the year/month extraction formulas of
`civilFromDoe` are certified by two small finite checks plus monotonicity. -/

/-- Gregorian leap-year test on a `Nat` (used for years-of-era shifted into
`0..400`, where it agrees with `isLeap` on the full year). -/
def leapNat (y : Nat) : Bool := (y % 4 == 0 && y % 100 != 0) || y % 400 == 0

/-- Nat version of `daysInMonth`. -/
def dimNat (y m : Nat) : Nat :=
  if m = 2 then (if leapNat y then 29 else 28)
  else if m = 4 || m = 6 || m = 9 || m = 11 then 30 else 31

/-- The leap-day-corrected day count from `civilFromDoe`; dividing it by 365
yields the year-of-era. -/
def corrDays (doe : Nat) : Nat := doe - doe / 1460 + doe / 36524 - doe / 146096

/-- First day-of-era of the (March-shifted) year-of-era `y`. -/
def yearStart (y : Nat) : Nat := 365 * y + y / 4 - y / 100

/-- One past the last day-of-era of the (March-shifted) year-of-era `y`
(`y < 400`; the last year of the era ends at day 146097). -/
def yearEndEx (y : Nat) : Nat := if y = 399 then 146097 else yearStart (y + 1)

/-- Per-year certificate: the year extraction formula of `civilFromDoe` is
exact at both ends of year `y`, the year slices are nonempty, lie inside the
era, have length at most 366, and have length 366 exactly for leap years. -/
def yearOkB (y : Nat) : Bool :=
  decide (corrDays (yearStart y) / 365 = y
    ∧ corrDays (yearEndEx y - 1) / 365 = y
    ∧ yearStart y < yearEndEx y
    ∧ yearEndEx y ≤ 146097
    ∧ ((yearEndEx y - yearStart y = 366) ↔ leapNat (y + 1) = true)
    ∧ yearEndEx y - yearStart y ≤ 366)

/-- Per-day-of-year certificate for the month/day extraction formulas of
`civilFromDoe` and their inverse `doyFromMd`. -/
def doyOkB (doy : Nat) : Bool :=
  let mp := (5 * doy + 2) / 153
  let d := doy - (153 * mp + 2) / 5 + 1
  let m := if mp < 10 then mp + 3 else mp - 9
  decide (1 ≤ m ∧ m ≤ 12 ∧ 1 ≤ d ∧ d ≤ 31
    ∧ doyFromMd m d = doy
    ∧ (m = 2 → d ≤ 29)
    ∧ (doy ≤ 364 → m = 2 → d ≤ 28)
    ∧ (m = 4 ∨ m = 6 ∨ m = 9 ∨ m = 11 → d ≤ 30)
    ∧ (doy = 365 → m = 2 ∧ d = 29))

/-- RFC 3339 representability of an instant: its civil year has four digits.
(Chrono can hold years outside `0..9999`, which RFC 3339 cannot express.) -/
def rfc3339Representable (n : Int) : Prop :=
  0 ≤ (civilFromDays (n / 1000000000 / 86400)).1
    ∧ (civilFromDays (n / 1000000000 / 86400)).1 ≤ 9999

instance (n : Int) : Decidable (rfc3339Representable n) := by
  unfold rfc3339Representable; infer_instance

/-! ## RFC 3339 formatting

Modelled from the spec: chrono's `to_rfc3339` renders
`YYYY-MM-DDThh:mm:ss[.frac]+00:00` for a UTC datetime, where the fractional
part is omitted when zero and otherwise printed with 3, 6 or 9 digits
(milli-, micro- or nanosecond precision, whichever is exact). -/

/-- Fractional-second part (`AutoSi` seconds format). -/
def fmtFrac (nano : Nat) : List Char :=
  if nano = 0 then []
  else if nano % 1000000 = 0 then '.' :: padDigits 3 (nano / 1000000)
  else if nano % 1000 = 0 then '.' :: padDigits 6 (nano / 1000)
  else '.' :: padDigits 9 nano

/-- Year field: zero-padded to 4 digits; years outside `0..9999` (not
representable in RFC 3339) carry an explicit sign. -/
def fmtYear (y : Int) : List Char :=
  if 0 ≤ y && y ≤ 9999 then padDigits 4 y.toNat
  else if y < 0 then
    '-' :: (if y.natAbs ≤ 9999 then padDigits 4 y.natAbs else Nat.toDigits 10 y.natAbs)
  else '+' :: Nat.toDigits 10 y.toNat

/-- RFC 3339 rendering of the instant `n` (nanoseconds since the Unix epoch),
in UTC with an explicit `+00:00` offset. -/
def to_rfc3339 (n : Int) : List Char :=
  let secs := n / 1000000000
  let nano := (n % 1000000000).toNat
  let days := secs / 86400
  let sod := (secs % 86400).toNat
  let ymd := civilFromDays days
  fmtYear ymd.1 ++ '-' :: padDigits 2 ymd.2.1 ++ '-' :: padDigits 2 ymd.2.2
    ++ 'T' :: padDigits 2 (sod / 3600) ++ ':' :: padDigits 2 (sod % 3600 / 60)
    ++ ':' :: padDigits 2 (sod % 60)
    ++ fmtFrac nano ++ ['+', '0', '0', ':', '0', '0']

/-! ## RFC 3339 parsing

Modelled from the spec: chrono's `DateTime::parse_from_rfc3339` accepts the
RFC 3339 grammar (4-digit year, calendar-valid date, 24-hour time, optional
fractional seconds kept to nanosecond precision, and a `Z` or `±hh:mm`
offset); the `.with_timezone(&Utc)` conversion in `new_from_string`
normalizes the parsed instant to UTC, which on the instant itself means
subtracting the offset. -/

/-- Consume one expected character. -/
def expectChar (c : Char) : List Char → Option (List Char)
  | x :: r => if x = c then some r else none
  | [] => none

/-- Optional fractional-second field: a `.` followed by at least one digit;
digits beyond nanosecond precision are discarded.  Absent field reads as 0. -/
def readFrac (l : List Char) : Option (Nat × List Char) :=
  match l with
  | c :: r =>
    if c = '.' then
      let ds := r.takeWhile Char.isDigit
      if ds.isEmpty then none
      else some (natOfDigits (ds.take 9) * 10 ^ (9 - min ds.length 9), r.dropWhile Char.isDigit)
    else some (0, l)
  | [] => some (0, l)

/-- Date/time separator: `T` (or the lowercase form also accepted upstream). -/
def expectT (l : List Char) : Option (List Char) :=
  match l with
  | c :: r => if c = 'T' ∨ c = 't' then some r else none
  | [] => none

/-- Numeric timezone offset, in seconds: `Z`/`z` or `±hh:mm`. -/
def readOffset (l : List Char) : Option (Int × List Char) :=
  match l with
  | c :: r =>
    if c = 'Z' ∨ c = 'z' then some (0, r)
    else if c = '+' ∨ c = '-' then do
      let (hh, r') ← readDigits 2 r
      let r' ← expectChar ':' r'
      let (mm, r') ← readDigits 2 r'
      if hh ≤ 23 && mm ≤ 59 then
        some (if c = '+' then ((hh * 3600 + mm * 60 : Nat) : Int)
              else -((hh * 3600 + mm * 60 : Nat) : Int), r')
      else none
    else none
  | [] => none

/-- Date part `YYYY-MM-DD`: year, month, day and the remaining input. -/
def readDate (l : List Char) : Option (Nat × Nat × Nat × List Char) := do
  let (y, l) ← readDigits 4 l
  let l ← expectChar '-' l
  let (mo, l) ← readDigits 2 l
  let l ← expectChar '-' l
  let (d, l) ← readDigits 2 l
  some (y, mo, d, l)

/-- Time part `hh:mm:ss`: hour, minute, second and the remaining input. -/
def readTime (l : List Char) : Option (Nat × Nat × Nat × List Char) := do
  let (h, l) ← readDigits 2 l
  let l ← expectChar ':' l
  let (mi, l) ← readDigits 2 l
  let l ← expectChar ':' l
  let (s, l) ← readDigits 2 l
  some (h, mi, s, l)

/-- Parse an RFC 3339 timestamp and return the instant it denotes, normalized
to UTC (nanoseconds since the Unix epoch). -/
def parse_from_rfc3339 (l : List Char) : Option Int := do
  let (y, mo, d, l) ← readDate l
  let l ← expectT l
  let (h, mi, s, l) ← readTime l
  let (nano, l) ← readFrac l
  let (off, l) ← readOffset l
  if l.isEmpty && 1 ≤ mo && mo ≤ 12 && 1 ≤ d && d ≤ daysInMonth (y : Int) mo
      && h ≤ 23 && mi ≤ 59 && s ≤ 59 then
    some ((daysFromCivil (y : Int) mo d * 86400 + ((h * 3600 + mi * 60 + s : Nat) : Int))
      * 1000000000 + (nano : Int) - off * 1000000000)
  else none

/-! ## The TimeInterval type (src/aw-models/src/timeinterval.rs) -/

/-- Rust `str::split('/')`: the list of `/`-separated segments (never empty;
an input without `/` yields one segment). -/
def splitOnSlash : List Char → List (List Char)
  | [] => [[]]
  | c :: cs =>
    if c = '/' then [] :: splitOnSlash cs
    else
      match splitOnSlash cs with
      | s :: ss => (c :: s) :: ss
      | [] => [[c]]

/-- The `TimeInterval` struct (lines 13-17): a pair of `DateTime<Utc>` values.
The Rust field `end` is a Lean keyword, so it is named `endT` here. -/
structure TimeInterval where
  start : Int
  endT : Int
  deriving DecidableEq

/-- The `TimeIntervalError` enum (lines 19-22). -/
inductive TimeIntervalError where
  | ParseError
  deriving DecidableEq

namespace TimeInterval

/-- `TimeInterval::new` (lines 26-28): always succeeds, stores both instants
verbatim. -/
def new (start endT : Int) : TimeInterval := ⟨start, endT⟩

/-- `TimeInterval::new_from_string` (lines 30-45): split on `/`, require
exactly two segments, parse each as RFC 3339 and normalize to UTC. -/
def new_from_string (period : String) : Except TimeIntervalError TimeInterval :=
  match splitOnSlash period.data with
  | [s0, s1] =>
    match parse_from_rfc3339 s0 with
    | none => .error .ParseError
    | some start =>
      match parse_from_rfc3339 s1 with
      | none => .error .ParseError
      | some endv => .ok (new start endv)
  | _ => .error .ParseError

/-- `TimeInterval::duration` (lines 55-57): `end - start`, signed. -/
def duration (t : TimeInterval) : Int := t.endT - t.start

/-- `TimeInterval::gap` (lines 60-68). -/
def gap (t other : TimeInterval) : Option TimeInterval :=
  if t.endT < other.start then some (new t.endT other.start)
  else if other.endT < t.start then some (new other.endT t.start)
  else none

/-- `TimeInterval::union` (lines 71-79).  Rust `std::cmp::min`/`max` on a
total order coincide with Lean's `min`/`max` on `Int`. -/
def union (t other : TimeInterval) : Option TimeInterval :=
  match gap t other with
  | some _ => none
  | none => some (new (min t.start other.start) (max t.endT other.endT))

/-- `TimeInterval::intersection` (lines 82-90). -/
def intersection (t other : TimeInterval) : Option TimeInterval :=
  let last_start := max t.start other.start
  let first_end := min t.endT other.endT
  if last_start < first_end then some (new last_start first_end) else none

/-- `TimeInterval::intersects` (lines 93-95). -/
def intersects (t other : TimeInterval) : Bool := (intersection t other).isSome

/-- The `fmt::Display` impl (lines 104-108): `"{}/{}"` of the two
`to_rfc3339` renderings; Rust's `to_string` goes through this. -/
def toString (t : TimeInterval) : String :=
  ⟨to_rfc3339 t.start ++ '/' :: to_rfc3339 t.endT⟩

end TimeInterval

/-- Value-level content of `serde::de::Error::invalid_value(Unexpected::Str
value, &self)`: the offending string and the visitor's `expecting`
description.  Modelled from the spec: the host format's error mechanism is
abstracted to this payload. -/
structure InvalidValueError where
  unexpected : String
  expected : String
  deriving DecidableEq

/-- The literal written by `TimeIntervalVisitor::expecting` (line 117). -/
def timeIntervalExpecting : String :=
  "an string in ISO timeinterval format (such as 2000-01-01T00:00:00+01:00/2001-02-02T01:01:01+01:00)"

/-- `TimeIntervalVisitor::visit_str` (lines 120-131): delegate to
`new_from_string`; on failure report an invalid-value error carrying the
input string and the `expecting` description (the `warn!` log line has no
value-level effect). -/
def TimeInterval.visit_str (value : String) : Except InvalidValueError TimeInterval :=
  match TimeInterval.new_from_string value with
  | .ok ti => .ok ti
  | .error _ => .error ⟨value, timeIntervalExpecting⟩

/-- The `Deserialize` impl (lines 134-141): `deserialize_str` with
`TimeIntervalVisitor`, applied to a string input. -/
def TimeInterval.deserialize (value : String) : Except InvalidValueError TimeInterval :=
  TimeInterval.visit_str value

/-! ## Verification -/

set_option maxHeartbeats 1000000 in
set_option maxRecDepth 10000 in
theorem yearOk_all : ∀ y, y < 400 → yearOkB y = true := by decide

set_option maxHeartbeats 1000000 in
set_option maxRecDepth 10000 in
theorem doyOk_all : ∀ doy, doy < 366 → doyOkB doy = true := by decide

theorem corrDays_mono_step (doe : Nat) (h : doe + 1 ≤ 146097) :
    corrDays doe ≤ corrDays (doe + 1) := by
  unfold corrDays
  omega

theorem corrDays_mono (a b : Nat) (hab : a ≤ b) (hb : b ≤ 146096) :
    corrDays a ≤ corrDays b := by
  induction b with
  | zero => simp_all
  | succ n ih =>
    rcases Nat.lt_or_ge a (n + 1) with h | h
    · exact Nat.le_trans (ih (by omega) (by omega)) (corrDays_mono_step n (by omega))
    · have : a = n + 1 := by omega
      simp [this]

theorem yearOk_props (y : Nat) (hy : y < 400) :
    corrDays (yearStart y) / 365 = y ∧ corrDays (yearEndEx y - 1) / 365 = y ∧
    yearStart y < yearEndEx y ∧ yearEndEx y ≤ 146097 ∧
    ((yearEndEx y - yearStart y = 366) ↔ leapNat (y + 1) = true) ∧
    yearEndEx y - yearStart y ≤ 366 := by
  have h := yearOk_all y hy
  simp only [yearOkB, decide_eq_true_eq] at h
  exact h

theorem coverage (doe : Nat) (h : doe < 146097) :
    ∃ y, y < 400 ∧ yearStart y ≤ doe ∧ doe < yearEndEx y := by
  induction doe with
  | zero => exact ⟨0, by decide, by decide, by decide⟩
  | succ k ih =>
    obtain ⟨y, hy, h1, h2⟩ := ih (by omega)
    rcases Nat.lt_or_ge (k + 1) (yearEndEx y) with hlt | hge
    · exact ⟨y, hy, by omega, hlt⟩
    · have hk1 : k + 1 = yearEndEx y := by omega
      by_cases h399 : y = 399
      · exfalso
        rw [h399] at hk1
        simp [yearEndEx] at hk1
        omega
      · have hy1 : y + 1 < 400 := by omega
        have hs : yearStart (y + 1) = yearEndEx y := by
          simp [yearEndEx, h399]
        obtain ⟨_, _, hlt, _, _, _⟩ := yearOk_props (y + 1) hy1
        exact ⟨y + 1, hy1, by omega, by omega⟩

theorem yoe_eq (doe y : Nat) (h : doe < 146097) (hy : y < 400)
    (h1 : yearStart y ≤ doe) (h2 : doe < yearEndEx y) :
    corrDays doe / 365 = y := by
  obtain ⟨e1, e2, _, h4, _, _⟩ := yearOk_props y hy
  have m1 : corrDays (yearStart y) ≤ corrDays doe := corrDays_mono _ _ h1 (by omega)
  have m2 : corrDays doe ≤ corrDays (yearEndEx y - 1) := corrDays_mono _ _ (by omega) (by omega)
  have d1 := Nat.div_le_div_right (c := 365) m1
  have d2 := Nat.div_le_div_right (c := 365) m2
  omega

theorem civilFromDoe_spec (doe : Nat) (h : doe < 146097) :
    ∃ yoe m d, civilFromDoe doe = (yoe, m, d) ∧ yoe < 400 ∧ 1 ≤ m ∧ m ≤ 12 ∧ 1 ≤ d
      ∧ d ≤ dimNat (yoe + if m ≤ 2 then 1 else 0) m
      ∧ 365 * yoe + yoe / 4 - yoe / 100 + doyFromMd m d = doe := by
  obtain ⟨y, hy, hys, hye⟩ := coverage doe h
  obtain ⟨_, _, hlt, h146, hleap, hlen⟩ := yearOk_props y hy
  have hysv : yearStart y = 365 * y + y / 4 - y / 100 := rfl
  have hyoe : (doe - doe / 1460 + doe / 36524 - doe / 146096) / 365 = y :=
    yoe_eq doe y h hy hys hye
  rcases hc : civilFromDoe doe with ⟨yoe, m, d⟩
  simp only [civilFromDoe] at hc
  rw [Prod.mk.injEq, Prod.mk.injEq] at hc
  rw [hyoe] at hc
  obtain ⟨hyy, hm_eq, hd_eq⟩ := hc
  subst hyy
  have hdoy366 : doe - (365 * y + y / 4 - y / 100) < 366 := by omega
  have hd' := doyOk_all (doe - (365 * y + y / 4 - y / 100)) hdoy366
  simp only [doyOkB, decide_eq_true_eq] at hd'
  rw [hm_eq, hd_eq] at hd'
  obtain ⟨hm1, hm12, hd1, hd31, hinv, hfeb29, hfeb28, h30, h365⟩ := hd'
  refine ⟨y, m, d, rfl, hy, hm1, hm12, hd1, ?_, ?_⟩
  · by_cases hm2 : m = 2
    · have hdim2 : dimNat (y + if m ≤ 2 then 1 else 0) m
          = if leapNat (y + 1) = true then 29 else 28 := by
        rw [hm2]; simp [dimNat]
      rw [hdim2]
      split
      · exact hfeb29 hm2
      · rcases Nat.lt_or_ge (doe - (365 * y + y / 4 - y / 100)) 365 with hlo | hhi
        · exact hfeb28 (by omega) hm2
        · exfalso
          have hl : leapNat (y + 1) = true := hleap.mp (by omega)
          simp_all
    · have hdim : dimNat (y + if m ≤ 2 then 1 else 0) m
          = if m = 4 ∨ m = 6 ∨ m = 9 ∨ m = 11 then 30 else 31 := by
        simp only [dimNat, if_neg hm2]
        by_cases h4 : m = 4 ∨ m = 6 ∨ m = 9 ∨ m = 11
        · rcases h4 with h' | h' | h' | h' <;> simp [h']
        · have : ¬(m = 4 ∨ m = 6 ∨ m = 9 ∨ m = 11) := h4
          push_neg at this
          obtain ⟨n4, n6, n9, n11⟩ := this
          simp [n4, n6, n9, n11, h4]
      rw [hdim]
      split
      · exact h30 (by assumption)
      · exact hd31
  · omega

theorem daysInMonth_cast (era : Int) (k m : Nat) :
    daysInMonth (era * 400 + (k : Int)) m = dimNat k m := by
  have hiff : isLeap (era * 400 + (k : Int)) = true ↔ leapNat k = true := by
    simp only [isLeap, leapNat, Bool.or_eq_true, Bool.and_eq_true, beq_iff_eq, bne_iff_ne]
    omega
  have hb : isLeap (era * 400 + (k : Int)) = leapNat k := by
    cases h1 : leapNat k
    · cases h2 : isLeap (era * 400 + (k : Int))
      · rfl
      · rw [h1] at hiff; simp at hiff; simp_all
    · exact hiff.mpr h1
  simp only [daysInMonth, dimNat, hb]

theorem civilFromDays_spec (z : Int) :
    ∃ y m d, civilFromDays z = (y, m, d) ∧ 1 ≤ m ∧ m ≤ 12 ∧ 1 ≤ d ∧ d ≤ daysInMonth y m
      ∧ daysFromCivil y m d = z := by
  have hdoe : ((z + 719468) % 146097).toNat < 146097 := by omega
  obtain ⟨yoe, m, d, hc, hyoe400, hm1, hm12, hd1, hdim, hinv⟩ :=
    civilFromDoe_spec ((z + 719468) % 146097).toNat hdoe
  refine ⟨(z + 719468) / 146097 * 400 + (yoe : Int) + (if m ≤ 2 then 1 else 0), m, d,
    ?_, hm1, hm12, hd1, ?_, ?_⟩
  · simp only [civilFromDays, hc]
  · have hcast : ((z + 719468) / 146097 * 400 + (yoe : Int) + (if m ≤ 2 then 1 else 0) : Int)
        = (z + 719468) / 146097 * 400 + ((yoe + if m ≤ 2 then 1 else 0 : Nat) : Int) := by
      by_cases h2 : m ≤ 2 <;> simp [h2, add_assoc]
    rw [hcast, daysInMonth_cast]
    exact hdim
  · simp only [daysFromCivil, doyFromMd]
    by_cases h2 : m ≤ 2
    · simp only [doyFromMd, if_neg (show ¬ 2 < m by omega)] at hinv
      simp only [if_pos h2, if_neg (show ¬ 2 < m by omega)]
      have hyv : ((z + 719468) / 146097 * 400 + (yoe : Int) + 1 - 1) / 400
          = (z + 719468) / 146097 := by omega
      have hyv2 : (((z + 719468) / 146097 * 400 + (yoe : Int) + 1 - 1) % 400).toNat = yoe := by
        omega
      rw [hyv, hyv2]
      omega
    · simp only [doyFromMd, if_pos (show 2 < m by omega)] at hinv
      simp only [if_neg h2, if_pos (show 2 < m by omega)]
      have hyv : ((z + 719468) / 146097 * 400 + (yoe : Int) + 0 - 0) / 400
          = (z + 719468) / 146097 := by omega
      have hyv2 : (((z + 719468) / 146097 * 400 + (yoe : Int) + 0 - 0) % 400).toNat = yoe := by
        omega
      rw [hyv, hyv2]
      omega

theorem digitChar_spec (d : Nat) (h : d < 10) :
    (digitChar d).isDigit = true ∧ (digitChar d).toNat = 48 + d ∧ digitChar d ≠ '/' := by
  interval_cases d <;> exact ⟨by decide, by decide, by decide⟩

theorem padDigits_length (w n : Nat) : (padDigits w n).length = w := by
  induction w generalizing n with
  | zero => rfl
  | succ k ih => simp [padDigits, ih]

theorem padDigits_mem (w n : Nat) (c : Char) (hc : c ∈ padDigits w n) :
    c.isDigit = true ∧ c ≠ '/' := by
  induction w generalizing n with
  | zero => simp [padDigits] at hc
  | succ k ih =>
    simp only [padDigits, List.mem_append, List.mem_singleton] at hc
    rcases hc with h' | h'
    · exact ih _ h'
    · subst h'
      obtain ⟨h1, _, h3⟩ := digitChar_spec (n % 10) (by omega)
      exact ⟨h1, h3⟩

theorem foldl_padDigits (w : Nat) : ∀ n acc : Nat, n < 10 ^ w →
    List.foldl (fun a c => a * 10 + (c.toNat - 48)) acc (padDigits w n) = acc * 10 ^ w + n := by
  induction w with
  | zero => intro n acc h; simp [padDigits]; omega
  | succ k ih =>
    intro n acc h
    rw [pow_succ] at h
    rw [padDigits, List.foldl_append, ih (n / 10) acc (by omega)]
    simp only [List.foldl_cons, List.foldl_nil]
    rw [(digitChar_spec (n % 10) (by omega)).2.1, pow_succ, ← mul_assoc]
    omega

theorem natOfDigits_padDigits (w n : Nat) (h : n < 10 ^ w) :
    natOfDigits (padDigits w n) = n := by
  have := foldl_padDigits w n 0 h
  simpa [natOfDigits] using this

theorem readDigits_padDigits (w n : Nat) (rest : List Char) (h : n < 10 ^ w) :
    readDigits w (padDigits w n ++ rest) = some (n, rest) := by
  unfold readDigits
  have hlen := padDigits_length w n
  have htake : (padDigits w n ++ rest).take w = padDigits w n := by
    have h' := List.take_left (padDigits w n) rest
    rwa [hlen] at h'
  have hdrop : (padDigits w n ++ rest).drop w = rest := by
    have h' := List.drop_left (padDigits w n) rest
    rwa [hlen] at h'
  have hall : (padDigits w n).all Char.isDigit = true := by
    rw [List.all_eq_true]; intro c hc; exact (padDigits_mem w n c hc).1
  simp only [htake, hdrop, hlen, hall, beq_self_eq_true, Bool.and_self, if_true,
    natOfDigits_padDigits w n h, Bool.true_and, if_pos]

theorem takeWhile_append_eq (p : Char → Bool) (l sfx : List Char) (c : Char)
    (hl : ∀ x ∈ l, p x = true) (hc : p c = false) :
    (l ++ c :: sfx).takeWhile p = l ∧ (l ++ c :: sfx).dropWhile p = c :: sfx := by
  induction l with
  | nil => simp [List.takeWhile_cons, List.dropWhile_cons, hc]
  | cons a as ih =>
    have ha : p a = true := hl a (by simp)
    have ih' := ih (fun x hx => hl x (by simp [hx]))
    simp [List.takeWhile_cons, List.dropWhile_cons, ha, ih'.1, ih'.2]

theorem readFrac_pad (w v : Nat) (hw : w ≤ 9) (h1 : 1 ≤ w) (hv : v < 10 ^ w) (r : List Char) :
    readFrac ('.' :: (padDigits w v ++ '+' :: r)) = some (v * 10 ^ (9 - w), '+' :: r) := by
  obtain ⟨htw, hdw⟩ := takeWhile_append_eq Char.isDigit (padDigits w v) r '+'
    (fun x hx => (padDigits_mem w v x hx).1) (by decide)
  simp only [readFrac, if_pos rfl, htw, hdw]
  have hlen := padDigits_length w v
  have hne : (padDigits w v).isEmpty = false := by
    cases hp : padDigits w v with
    | nil => exfalso; rw [hp] at hlen; simp at hlen; omega
    | cons a as => rfl
  rw [hne]
  simp only [Bool.false_eq_true, if_neg]
  have htk : (padDigits w v).take 9 = padDigits w v :=
    List.take_of_length_le (by omega)
  rw [htk, natOfDigits_padDigits w v hv, hlen]
  have : min w 9 = w := by omega
  rw [this]
  simp

theorem readFrac_fmtFrac (nano : Nat) (h : nano < 1000000000) (r : List Char) :
    readFrac (fmtFrac nano ++ '+' :: r) = some (nano, '+' :: r) := by
  unfold fmtFrac
  by_cases h0 : nano = 0
  · simp [h0, readFrac]
  · by_cases h6 : nano % 1000000 = 0
    · simp only [if_neg h0, if_pos h6, List.cons_append]
      rw [readFrac_pad 3 (nano / 1000000) (by omega) (by omega) (by omega) r]
      congr 2
      norm_num
      omega
    · by_cases h3 : nano % 1000 = 0
      · simp only [if_neg h0, if_neg h6, if_pos h3, List.cons_append]
        rw [readFrac_pad 6 (nano / 1000) (by omega) (by omega) (by norm_num; omega) r]
        congr 2
        norm_num
        omega
      · simp only [if_neg h0, if_neg h6, if_neg h3, List.cons_append]
        rw [readFrac_pad 9 nano (by omega) (by omega) (by norm_num; omega) r]
        congr 2
        norm_num

theorem expectChar_cons (c : Char) (r : List Char) : expectChar c (c :: r) = some r := by
  simp [expectChar]

theorem expectT_cons (r : List Char) : expectT ('T' :: r) = some r := by
  simp [expectT]

theorem readOffset_utc : readOffset ('+' :: '0' :: '0' :: ':' :: '0' :: '0' :: []) =
    some (0, []) := by decide

theorem readDate_pad (y mo d : Nat) (rest : List Char)
    (hy : y < 10 ^ 4) (hmo : mo < 10 ^ 2) (hd : d < 10 ^ 2) :
    readDate (padDigits 4 y ++ '-' :: (padDigits 2 mo ++ '-' :: (padDigits 2 d ++ rest)))
      = some (y, mo, d, rest) := by
  unfold readDate
  rw [readDigits_padDigits 4 y _ hy]
  simp only [Option.bind_eq_bind, Option.some_bind]
  rw [expectChar_cons]
  simp only [Option.some_bind]
  rw [readDigits_padDigits 2 mo _ hmo]
  simp only [Option.some_bind]
  rw [expectChar_cons]
  simp only [Option.some_bind]
  rw [readDigits_padDigits 2 d _ hd]
  simp only [Option.some_bind]

theorem readTime_pad (h mi s : Nat) (rest : List Char)
    (hh : h < 10 ^ 2) (hmi : mi < 10 ^ 2) (hs : s < 10 ^ 2) :
    readTime (padDigits 2 h ++ ':' :: (padDigits 2 mi ++ ':' :: (padDigits 2 s ++ rest)))
      = some (h, mi, s, rest) := by
  unfold readTime
  rw [readDigits_padDigits 2 h _ hh]
  simp only [Option.bind_eq_bind, Option.some_bind]
  rw [expectChar_cons]
  simp only [Option.some_bind]
  rw [readDigits_padDigits 2 mi _ hmi]
  simp only [Option.some_bind]
  rw [expectChar_cons]
  simp only [Option.some_bind]
  rw [readDigits_padDigits 2 s _ hs]
  simp only [Option.some_bind]

theorem daysInMonth_le_31 (y : Int) (m : Nat) : daysInMonth y m ≤ 31 := by
  unfold daysInMonth
  split_ifs <;> omega

theorem parse_format_shape (y mo d hh mi ss nano : Nat)
    (hy : y < 10000) (hmo1 : 1 ≤ mo) (hmo : mo ≤ 12) (hd1 : 1 ≤ d)
    (hd : d ≤ daysInMonth (y : Int) mo)
    (hh23 : hh ≤ 23) (hmi59 : mi ≤ 59) (hss59 : ss ≤ 59) (hnano : nano < 1000000000) :
    parse_from_rfc3339 (padDigits 4 y ++ '-' :: (padDigits 2 mo ++ '-' :: (padDigits 2 d ++
      'T' :: (padDigits 2 hh ++ ':' :: (padDigits 2 mi ++ ':' :: (padDigits 2 ss ++
      (fmtFrac nano ++ '+' :: '0' :: '0' :: ':' :: '0' :: '0' :: [])))))))
    = some ((daysFromCivil (y : Int) mo d * 86400 + ((hh * 3600 + mi * 60 + ss : Nat) : Int))
        * 1000000000 + (nano : Int)) := by
  unfold parse_from_rfc3339
  have hd31 := daysInMonth_le_31 (y : Int) mo
  rw [readDate_pad y mo d _ (by norm_num; omega) (by norm_num; omega) (by norm_num; omega)]
  simp only [Option.bind_eq_bind, Option.some_bind]
  rw [expectT_cons]
  simp only [Option.some_bind]
  rw [readTime_pad hh mi ss _ (by norm_num; omega) (by norm_num; omega) (by norm_num; omega)]
  simp only [Option.some_bind]
  rw [readFrac_fmtFrac nano hnano]
  simp only [Option.some_bind]
  rw [readOffset_utc]
  simp only [Option.some_bind]
  rw [if_pos]
  · congr 1
    omega
  · simp only [List.isEmpty_nil, Bool.true_and, Bool.and_eq_true, decide_eq_true_eq]
    omega

theorem parse_to_rfc3339 (n : Int) (h : rfc3339Representable n) :
    parse_from_rfc3339 (to_rfc3339 n) = some n := by
  unfold rfc3339Representable at h
  obtain ⟨h0, h1⟩ := h
  obtain ⟨y, m, d, hc, hm1, hm12, hd1, hdim, hinv⟩ := civilFromDays_spec (n / 1000000000 / 86400)
  rw [hc] at h0 h1
  simp only at h0 h1
  have hyt : ((y.toNat : Int)) = y := Int.toNat_of_nonneg h0
  have hsod : ((n / 1000000000) % 86400).toNat < 86400 := by omega
  have hnano : (n % 1000000000).toNat < 1000000000 := by omega
  simp only [to_rfc3339]
  rw [hc]
  have hfy : fmtYear y = padDigits 4 y.toNat := by
    unfold fmtYear
    rw [if_pos]
    simp [h0, h1]
  rw [hfy]
  simp only [List.cons_append, List.append_assoc, List.nil_append]
  rw [parse_format_shape y.toNat m d _ _ _ _ (by omega) hm1 hm12 hd1
    (by rw [hyt]; exact hdim) (by omega) (by omega) (by omega) hnano]
  rw [hyt, hinv]
  congr 1
  omega

theorem slash_not_mem_padDigits (w v : Nat) : '/' ∉ padDigits w v :=
  fun hm => ((padDigits_mem w v _ hm).2 rfl)

theorem slash_not_mem_fmtFrac (na : Nat) : '/' ∉ fmtFrac na := by
  intro hm
  unfold fmtFrac at hm
  split_ifs at hm
  · exact List.not_mem_nil _ hm
  · rcases List.mem_cons.mp hm with h' | h'
    · exact absurd h' (by decide)
    · exact slash_not_mem_padDigits _ _ h'
  · rcases List.mem_cons.mp hm with h' | h'
    · exact absurd h' (by decide)
    · exact slash_not_mem_padDigits _ _ h'
  · rcases List.mem_cons.mp hm with h' | h'
    · exact absurd h' (by decide)
    · exact slash_not_mem_padDigits _ _ h'

theorem slash_not_mem_to_rfc3339 (n : Int) (h : rfc3339Representable n) :
    '/' ∉ to_rfc3339 n := by
  unfold rfc3339Representable at h
  obtain ⟨h0, h1⟩ := h
  obtain ⟨y, m, d, hc, _, _, _, _, _⟩ := civilFromDays_spec (n / 1000000000 / 86400)
  rw [hc] at h0 h1
  simp only at h0 h1
  simp only [to_rfc3339]
  rw [hc]
  have hfy : fmtYear y = padDigits 4 y.toNat := by
    unfold fmtYear
    rw [if_pos]
    simp [h0, h1]
  rw [hfy]
  intro hmem
  simp [List.mem_append, List.mem_cons, slash_not_mem_padDigits,
    slash_not_mem_fmtFrac] at hmem

theorem splitOnSlash_no_slash (l : List Char) (h : '/' ∉ l) : splitOnSlash l = [l] := by
  induction l with
  | nil => rfl
  | cons c cs ih =>
    have hc : ¬ c = '/' := fun e => h (by simp [e])
    have hcs : '/' ∉ cs := fun m => h (by simp [m])
    simp [splitOnSlash, hc, ih hcs]

theorem splitOnSlash_append (a b : List Char) (ha : '/' ∉ a) (hb : '/' ∉ b) :
    splitOnSlash (a ++ '/' :: b) = [a, b] := by
  induction a with
  | nil => simp [splitOnSlash, splitOnSlash_no_slash b hb]
  | cons c cs ih =>
    have hc : ¬ c = '/' := fun e => ha (by simp [e])
    simp [splitOnSlash, hc, ih (fun m => ha (by simp [m]))]

theorem new_from_string_toString (t : TimeInterval) (hs : rfc3339Representable t.start)
    (he : rfc3339Representable t.endT) :
    TimeInterval.new_from_string (TimeInterval.toString t) = Except.ok t := by
  have hsplit : splitOnSlash (to_rfc3339 t.start ++ '/' :: to_rfc3339 t.endT)
      = [to_rfc3339 t.start, to_rfc3339 t.endT] :=
    splitOnSlash_append _ _ (slash_not_mem_to_rfc3339 _ hs) (slash_not_mem_to_rfc3339 _ he)
  unfold TimeInterval.toString TimeInterval.new_from_string
  have hdata : (String.mk (to_rfc3339 t.start ++ '/' :: to_rfc3339 t.endT)).data
      = to_rfc3339 t.start ++ '/' :: to_rfc3339 t.endT := rfl
  rw [hdata, hsplit]
  simp only [parse_to_rfc3339 _ hs, parse_to_rfc3339 _ he]
  rfl

theorem gap_isSome_comm (A B : TimeInterval) :
    (TimeInterval.gap A B).isSome = (TimeInterval.gap B A).isSome := by
  unfold TimeInterval.gap
  split_ifs <;> simp_all

theorem union_comm (A B : TimeInterval) : TimeInterval.union A B = TimeInterval.union B A := by
  have h := gap_isSome_comm A B
  unfold TimeInterval.union
  rcases hAB : TimeInterval.gap A B with _ | g <;> rcases hBA : TimeInterval.gap B A with _ | g'
  · rw [min_comm, max_comm]
  · rw [hAB, hBA] at h; simp at h
  · rw [hAB, hBA] at h; simp at h
  · rfl

theorem intersection_comm (A B : TimeInterval) :
    TimeInterval.intersection A B = TimeInterval.intersection B A := by
  unfold TimeInterval.intersection
  rw [max_comm, min_comm]

theorem gap_comm_of_wf (A B : TimeInterval) (hA : A.start ≤ A.endT) (hB : B.start ≤ B.endT) :
    TimeInterval.gap A B = TimeInterval.gap B A := by
  unfold TimeInterval.gap
  split_ifs <;> first | rfl | (exfalso; omega)

theorem intersects_bound (A B : TimeInterval) (h : TimeInterval.intersects A B = true) :
    A.start < B.endT ∧ B.start < A.endT := by
  unfold TimeInterval.intersects TimeInterval.intersection at h
  by_cases hc : max A.start B.start < min A.endT B.endT
  · have h1 : A.start ≤ max A.start B.start := le_max_left _ _
    have h2 : B.start ≤ max A.start B.start := le_max_right _ _
    have h3 : min A.endT B.endT ≤ A.endT := min_le_left _ _
    have h4 : min A.endT B.endT ≤ B.endT := min_le_right _ _
    omega
  · rw [if_neg hc] at h
    simp at h

theorem new_from_string_ok (s : String) (a b : List Char) (hsp : splitOnSlash s.data = [a, b])
    (x y : Int) (hx : parse_from_rfc3339 a = some x) (hy : parse_from_rfc3339 b = some y) :
    TimeInterval.new_from_string s = .ok ⟨x, y⟩ := by
  unfold TimeInterval.new_from_string
  simp only [hsp, hx, hy]
  rfl

theorem new_from_string_error_iff (s : String) :
    TimeInterval.new_from_string s = .error .ParseError ↔
      ¬ ∃ a b, splitOnSlash s.data = [a, b] ∧ (parse_from_rfc3339 a).isSome
        ∧ (parse_from_rfc3339 b).isSome := by
  unfold TimeInterval.new_from_string
  rcases hsp : splitOnSlash s.data with _ | ⟨a, _ | ⟨b, _ | ⟨c, t⟩⟩⟩
  · simp
  · simp
  · rcases hpa : parse_from_rfc3339 a with _ | x
    · simp [hpa]
    · rcases hpb : parse_from_rfc3339 b with _ | y
      · simp [hpa, hpb]
      · simp [hpa, hpb]
  · simp

theorem gap_none_of_intersects (A B : TimeInterval) (h : TimeInterval.intersects A B = true) :
    TimeInterval.gap A B = none := by
  obtain ⟨h1, h2⟩ := intersects_bound A B h
  unfold TimeInterval.gap
  rw [if_neg (by omega), if_neg (by omega)]

theorem gap_none_of_touching (A B : TimeInterval) (hA : A.start ≤ A.endT)
    (hB : B.start ≤ B.endT) (h : A.endT = B.start ∨ B.endT = A.start) :
    TimeInterval.gap A B = none := by
  unfold TimeInterval.gap
  rw [if_neg (by omega), if_neg (by omega)]

/-- C1 (counterexample): the round-trip claim fails as stated for an instant
outside the RFC 3339 year range: the instant `253402300800000000000` ns
(year 10000) formats with a signed five-digit year (`+10000-01-01...`),
which `new_from_string` then rejects, so parsing the formatted interval does
not succeed. -/
theorem c1_roundtrip_counterexample :
    (TimeInterval.new_from_string (TimeInterval.toString
      ⟨253402300800000000000, 253402300800000000000⟩)).isOk = false := by decide

/-- C1 (amended): for every `TimeInterval` both of whose instants are
representable in RFC 3339 (civil year in `0..9999`), formatting via the
`Display` impl and parsing the string back with `new_from_string` succeeds
and reproduces a `TimeInterval` with the same start instant, the same end
instant (including `start > end`), and the same duration. -/
theorem c1_roundtrip_amended (t : TimeInterval)
    (hs : rfc3339Representable t.start) (he : rfc3339Representable t.endT) :
    ∃ t', TimeInterval.new_from_string (TimeInterval.toString t) = .ok t'
      ∧ t'.start = t.start ∧ t'.endT = t.endT
      ∧ TimeInterval.duration t' = TimeInterval.duration t :=
  ⟨t, new_from_string_toString t hs he, rfl, rfl, rfl⟩

/-- C1 witness: the round-trip at the concrete interval
`2000-01-01T00:00:00Z / 2000-01-02T00:00:00Z` from the source test. -/
theorem c1_roundtrip_amended_witness :
    ∃ t', TimeInterval.new_from_string (TimeInterval.toString
        ⟨946684800000000000, 946771200000000000⟩) = .ok t'
      ∧ t'.start = (⟨946684800000000000, 946771200000000000⟩ : TimeInterval).start
      ∧ t'.endT = (⟨946684800000000000, 946771200000000000⟩ : TimeInterval).endT
      ∧ TimeInterval.duration t'
          = TimeInterval.duration ⟨946684800000000000, 946771200000000000⟩ :=
  c1_roundtrip_amended ⟨946684800000000000, 946771200000000000⟩ (by decide) (by decide)

/-- C2: for `t0 < t1 < t2`, the adjacent intervals `[t0,t1)` and `[t1,t2)`
do not intersect, have no gap, and union into `[t0,t2)`. -/
theorem c2_adjacency (t0 t1 t2 : Int) (h01 : t0 < t1) (h12 : t1 < t2) :
    TimeInterval.intersects (TimeInterval.new t0 t1) (TimeInterval.new t1 t2) = false
    ∧ TimeInterval.gap (TimeInterval.new t0 t1) (TimeInterval.new t1 t2) = none
    ∧ TimeInterval.union (TimeInterval.new t0 t1) (TimeInterval.new t1 t2)
        = some (TimeInterval.new t0 t2) := by
  have hgap : TimeInterval.gap (TimeInterval.new t0 t1) (TimeInterval.new t1 t2) = none := by
    unfold TimeInterval.gap TimeInterval.new
    dsimp only
    rw [if_neg (by omega), if_neg (by omega)]
  refine ⟨?_, hgap, ?_⟩
  · unfold TimeInterval.intersects TimeInterval.intersection TimeInterval.new
    dsimp only
    rw [if_neg ?_]
    · rfl
    · have := min_le_left t1 t2
      have := le_max_right t0 t1
      omega
  · unfold TimeInterval.union
    rw [hgap]
    unfold TimeInterval.new
    dsimp only
    rw [min_eq_left (le_of_lt h01), max_eq_right (le_of_lt h12)]

/-- C2 witness: adjacency at the concrete instants 0, 1, 2. -/
theorem c2_adjacency_witness :
    TimeInterval.intersects (TimeInterval.new 0 1) (TimeInterval.new 1 2) = false
    ∧ TimeInterval.gap (TimeInterval.new 0 1) (TimeInterval.new 1 2) = none
    ∧ TimeInterval.union (TimeInterval.new 0 1) (TimeInterval.new 1 2)
        = some (TimeInterval.new 0 2) :=
  c2_adjacency 0 1 2 (by decide) (by decide)

/-- C3 (counterexample): `gap` is not symmetric on inverted intervals
(which `new` and `new_from_string` permit): for `A = (10,0)` and
`B = (20,1)`, `gap A B = some (0,20)` while `gap B A = some (1,10)`. -/
theorem c3_symmetry_counterexample :
    TimeInterval.gap ⟨10, 0⟩ ⟨20, 1⟩ ≠ TimeInterval.gap ⟨20, 1⟩ ⟨10, 0⟩ := by decide

/-- C3 (amended): `union`, `intersection` and `intersects` are symmetric for
all pairs of `TimeInterval`s; `gap` is symmetric whenever both intervals are
well-formed (`start ≤ end`). -/
theorem c3_symmetry_amended (A B : TimeInterval) :
    TimeInterval.union A B = TimeInterval.union B A
    ∧ TimeInterval.intersection A B = TimeInterval.intersection B A
    ∧ TimeInterval.intersects A B = TimeInterval.intersects B A
    ∧ (A.start ≤ A.endT → B.start ≤ B.endT →
        TimeInterval.gap A B = TimeInterval.gap B A) :=
  ⟨union_comm A B, intersection_comm A B,
    by unfold TimeInterval.intersects; rw [intersection_comm],
    gap_comm_of_wf A B⟩

/-- C3 witness: gap symmetry at the concrete well-formed pair
`[0,1)`, `[2,3)`. -/
theorem c3_symmetry_amended_witness :
    TimeInterval.gap ⟨0, 1⟩ ⟨2, 3⟩ = TimeInterval.gap ⟨2, 3⟩ ⟨0, 1⟩ :=
  (c3_symmetry_amended ⟨0, 1⟩ ⟨2, 3⟩).2.2.2 (by decide) (by decide)

/-- C4: `new_from_string` returns `Err(ParseError)` exactly when splitting
on `/` does not yield two segments or either segment fails RFC 3339 parsing;
when both segments parse, it returns `Ok` with the two UTC instants and no
ordering check (a concrete inverted interval is accepted).  The Lean
function is total, so no panic and no default value are possible. -/
theorem c4_new_from_string_spec (s : String) :
    (TimeInterval.new_from_string s = .error .ParseError ↔
      ¬ ∃ a b, splitOnSlash s.data = [a, b] ∧ (parse_from_rfc3339 a).isSome
        ∧ (parse_from_rfc3339 b).isSome)
    ∧ (∀ a b x y, splitOnSlash s.data = [a, b] → parse_from_rfc3339 a = some x →
        parse_from_rfc3339 b = some y → TimeInterval.new_from_string s = .ok ⟨x, y⟩)
    ∧ (∃ t, TimeInterval.new_from_string
        "2001-01-01T00:00:00Z/2000-01-01T00:00:00Z" = .ok t ∧ t.endT < t.start) := by
  refine ⟨new_from_string_error_iff s,
    fun a b x y hsp hx hy => new_from_string_ok s a b hsp x y hx hy, ?_⟩
  exact ⟨⟨978307200000000000, 946684800000000000⟩, by rfl, by decide⟩

/-- C4 witness: the success case at the source test's interval string. -/
theorem c4_new_from_string_spec_witness :
    TimeInterval.new_from_string "2000-01-01T00:00:00+00:00/2000-01-02T00:00:00+00:00"
      = .ok ⟨946684800000000000, 946771200000000000⟩ :=
  (c4_new_from_string_spec "2000-01-01T00:00:00+00:00/2000-01-02T00:00:00+00:00").2.1
    "2000-01-01T00:00:00+00:00".data "2000-01-02T00:00:00+00:00".data
    946684800000000000 946771200000000000 (by decide) (by rfl) (by rfl)

/-- C5 (counterexample): the gloss "touching intervals yield None" fails
for inverted inputs: `A = (5,0)` and `B = (0,3)` touch (`A.end = B.start`)
yet `gap A B = some (3,5)` via the second branch. -/
theorem c5_gap_counterexample :
    (⟨5, 0⟩ : TimeInterval).endT = (⟨0, 3⟩ : TimeInterval).start
    ∧ TimeInterval.gap ⟨5, 0⟩ ⟨0, 3⟩ ≠ none := by decide

/-- C5 (amended): `gap` is exactly the stated strict two-branch case split;
overlapping (intersecting) intervals always yield `none`, and touching
intervals yield `none` provided both are well-formed (`start ≤ end`). -/
theorem c5_gap_spec (A B : TimeInterval) :
    TimeInterval.gap A B = (if A.endT < B.start then some (TimeInterval.new A.endT B.start)
      else if B.endT < A.start then some (TimeInterval.new B.endT A.start) else none)
    ∧ (TimeInterval.intersects A B = true → TimeInterval.gap A B = none)
    ∧ (A.start ≤ A.endT → B.start ≤ B.endT →
        A.endT = B.start ∨ B.endT = A.start → TimeInterval.gap A B = none) :=
  ⟨rfl, gap_none_of_intersects A B, gap_none_of_touching A B⟩

/-- C5 witness: touching well-formed intervals `[0,1)`, `[1,2)` have no
gap. -/
theorem c5_gap_spec_witness : TimeInterval.gap ⟨0, 1⟩ ⟨1, 2⟩ = none :=
  (c5_gap_spec ⟨0, 1⟩ ⟨1, 2⟩).2.2 (by decide) (by decide) (Or.inl (by decide))

/-- C6: `union A B` is `none` exactly when `gap A B` is `some`, and
otherwise is `some [min(A.start,B.start), max(A.end,B.end))`. -/
theorem c6_union_spec (A B : TimeInterval) :
    TimeInterval.union A B = if (TimeInterval.gap A B).isSome then none
      else some (TimeInterval.new (min A.start B.start) (max A.endT B.endT)) := by
  unfold TimeInterval.union
  cases hg : TimeInterval.gap A B <;> simp [hg]

/-- C7: `intersection` returns `[max starts, min ends)` under the strict
comparison `lo < hi` and `none` otherwise (zero-width overlap gives
`none`), and `intersects` is exactly `isSome` of `intersection`. -/
theorem c7_intersection_spec (A B : TimeInterval) :
    TimeInterval.intersection A B = (if max A.start B.start < min A.endT B.endT
      then some (TimeInterval.new (max A.start B.start) (min A.endT B.endT)) else none)
    ∧ TimeInterval.intersects A B = (TimeInterval.intersection A B).isSome :=
  ⟨rfl, rfl⟩

/-- C8: `new` always succeeds and stores both instants verbatim;
`duration` is the signed difference `end - start`, negative whenever
`start > end`. -/
theorem c8_duration_new (s e : Int) :
    (TimeInterval.new s e).start = s ∧ (TimeInterval.new s e).endT = e
    ∧ TimeInterval.duration (TimeInterval.new s e) = e - s
    ∧ (e < s → TimeInterval.duration (TimeInterval.new s e) < 0) :=
  ⟨rfl, rfl, rfl, fun h => by
    unfold TimeInterval.duration TimeInterval.new
    dsimp only
    omega⟩

/-- C8 witness: the inverted interval `(1,0)` has negative duration. -/
theorem c8_duration_new_witness : TimeInterval.duration (TimeInterval.new 1 0) < 0 :=
  (c8_duration_new 1 0).2.2.2 (by decide)

/-- C9 (counterexample): deserializing the malformed string `a/b` fails
with an error that identifies the offending string, but the carried
expected-format description is the source's literal
"an string in ISO timeinterval format (...)", not the description quoted in
the claim. -/
theorem c9_deserialize_counterexample :
    TimeInterval.deserialize "a/b" = .error ⟨"a/b", timeIntervalExpecting⟩
    ∧ timeIntervalExpecting ≠
      "a string in ISO time-interval format (such as `2000-01-01T00:00:00+01:00/2001-02-02T01:01:01+01:00`)" :=
  ⟨by rfl, by decide⟩

/-- C9 (amended): for every input on which `new_from_string` fails,
deserialization fails (returns no default value) with an invalid-value
error carrying the offending string and the visitor's actual `expecting`
description. -/
theorem c9_deserialize_spec (s : String) (e : TimeIntervalError)
    (h : TimeInterval.new_from_string s = .error e) :
    TimeInterval.deserialize s = .error ⟨s, timeIntervalExpecting⟩ := by
  unfold TimeInterval.deserialize TimeInterval.visit_str
  rw [h]

/-- C9 witness: the malformed input `x/y/z` (two separators). -/
theorem c9_deserialize_spec_witness :
    TimeInterval.deserialize "x/y/z" = .error ⟨"x/y/z", timeIntervalExpecting⟩ :=
  c9_deserialize_spec "x/y/z" .ParseError (by rfl)

/-- C10: any interval produced by `gap` or `intersection` has strictly
positive duration (`start < end`), for all inputs including inverted ones,
and `gap` and `intersection` are never both `some`. -/
theorem c10_results_wellformed (A B r : TimeInterval) :
    (TimeInterval.gap A B = some r → r.start < r.endT)
    ∧ (TimeInterval.intersection A B = some r → r.start < r.endT)
    ∧ ((TimeInterval.gap A B).isSome && (TimeInterval.intersection A B).isSome) = false := by
  refine ⟨?_, ?_, ?_⟩
  · intro h
    unfold TimeInterval.gap at h
    split_ifs at h with h1 h2
    · simp only [Option.some.injEq] at h
      subst h
      exact h1
    · simp only [Option.some.injEq] at h
      subst h
      exact h2
  · intro h
    simp only [TimeInterval.intersection] at h
    split_ifs at h with h1
    simp only [Option.some.injEq] at h
    subst h
    exact h1
  · rcases hg : TimeInterval.gap A B with _ | g
    · simp
    · rcases hi : TimeInterval.intersection A B with _ | i
      · simp
      · exfalso
        unfold TimeInterval.gap at hg
        simp only [TimeInterval.intersection] at hi
        split_ifs at hi with h3
        have l1 := le_max_left A.start B.start
        have l2 := le_max_right A.start B.start
        have l3 := min_le_left A.endT B.endT
        have l4 := min_le_right A.endT B.endT
        split_ifs at hg with h1 h2
        · omega
        · omega

/-- C10 witness: the gap of `[0,1)` and `[2,3)` is the positive interval
`[1,2)`. -/
theorem c10_results_wellformed_witness :
    (⟨1, 2⟩ : TimeInterval).start < (⟨1, 2⟩ : TimeInterval).endT :=
  (c10_results_wellformed ⟨0, 1⟩ ⟨2, 3⟩ ⟨1, 2⟩).1 (by decide)

end AwModels
